import Mathlib

/-!
Verification development for the GDPR education-audit core.

Shallow embedding of the two core source modules:
  * `LegalKnowledgeService` / `LegalKnowledgeVectorizer`
    (chunking, legal-reference extraction, answer synthesis, confidence,
    cache interaction of `getLegalRequirement`), and
  * `ViolationDetectionEngine`
    (cookie compliance rule, summary, fine range, compliance score).

Text is modelled as `List Char`; JavaScript numbers used as loop indices are
modelled as `Int` (the sliding-window start may go negative); distance scores
are modelled as `ℚ`.  Fallible operations return `Option`/`Except`, and the
two `while` loops of the source that are not structurally decreasing are
modelled with explicit fuel, so definitions stay executable.
-/

/-! ## JavaScript character classes and small string helpers -/

/-- The character class `\s` of JavaScript regular expressions
(whitespace, line terminators, no-break spaces, BOM). -/
def jsWhitespace (c : Char) : Bool :=
  c = ' ' || c = '\t' || c = '\n' || c.toNat = 0x0b || c.toNat = 0x0c || c = '\r' ||
  c.toNat = 0xa0 || c.toNat = 0x1680 || (0x2000 ≤ c.toNat && c.toNat ≤ 0x200a) ||
  c.toNat = 0x2028 || c.toNat = 0x2029 || c.toNat = 0x202f || c.toNat = 0x205f ||
  c.toNat = 0x3000 || c.toNat = 0xfeff

/-- The character class `\d` (ASCII digits). -/
def isDigitChar (c : Char) : Bool := '0' ≤ c && c ≤ '9'

/-- `[a-z]` under the `i` flag: any ASCII letter. -/
def isAsciiLetter (c : Char) : Bool :=
  ('a' ≤ c && c ≤ 'z') || ('A' ≤ c && c ≤ 'Z')

/-- `[A-Z]` without the `i` flag (used by the numbered-section pattern). -/
def isUpperAZ (c : Char) : Bool := 'A' ≤ c && c ≤ 'Z'

/-- Case-insensitive character comparison (the regex `i` flag on ASCII). -/
def charEqCI (a b : Char) : Bool := a.toLower = b.toLower

/-- Substring test, the semantics of JavaScript `String.prototype.includes`. -/
def jsIncludes (needle : List Char) : List Char → Bool
  | [] => needle.isEmpty
  | c :: t => needle.isPrefixOf (c :: t) || jsIncludes needle t

/-! ## Deterministic parsers for the four reference-family regexes

Each parser matches a regex at the head of the input and returns the rest of
the input on success.  The regexes of `extractLegalReferences` contain only
literals, character classes, greedy `\s+`/`\s*`/`\d+` and optional groups
whose first character can never begin the continuation of the pattern, so a
greedy parser without backtracking computes exactly the regex match. -/

/-- Case-insensitive literal. -/
def pLitCI : List Char → List Char → Option (List Char)
  | [], s => some s
  | _ :: _, [] => none
  | l :: lt, c :: ct => if charEqCI l c then pLitCI lt ct else none

/-- A single optional literal character (`x?`). -/
def pOptChar (l : Char) : List Char → List Char
  | [] => []
  | c :: ct => if c = l then ct else c :: ct

/-- `\s*`. -/
def pWs0 (s : List Char) : List Char := s.dropWhile jsWhitespace

/-- `\s+`. -/
def pWs1 : List Char → Option (List Char)
  | [] => none
  | c :: ct => if jsWhitespace c then some (ct.dropWhile jsWhitespace) else none

/-- `(\d+)`: greedy digit run, at least one digit. -/
def pDigits1 (s : List Char) : Option (List Char × List Char) :=
  let ds := s.takeWhile isDigitChar
  if ds.isEmpty then none else some (ds, s.dropWhile isDigitChar)

/-- `(\d{n})`: exactly `n` digits (further digits are simply not consumed). -/
def pDigitsExact (n : Nat) (s : List Char) : Option (List Char × List Char) :=
  let ds := s.take n
  if ds.length = n && ds.all isDigitChar then some (ds, s.drop n) else none

/-- An optional group `(?:lit\s+)?` (case-insensitive literal then `\s+`);
the group is atomic: it is taken only when both parts match. -/
def pOptLitCIWs (lit : List Char) (s : List Char) : List Char :=
  match pLitCI lit s with
  | none => s
  | some r =>
    match pWs1 r with
    | none => s
    | some r2 => r2

/-- The optional group `(?:n\.?\s*)?` of the decree and Garante patterns. -/
def pOptNumeroMark (s : List Char) : List Char :=
  match s with
  | [] => []
  | c :: ct => if charEqCI 'n' c then pWs0 (pOptChar '.' ct) else c :: ct

/-! ## `extractLegalReferences` (LegalKnowledgeVectorizer)

The four reference families pushed by the source, in its field layout.
`text` is the full matched text (`match[0]`). -/

/-- A structured legal reference, one constructor per reference family. -/
inductive LegalReference where
  | gdpr (article : List Char) (paragraph : Option (List Char))
      (subparagraph : Option Char) (text : List Char)
  | aiAct (article : List Char) (text : List Char)
  | italianDecree (number : List Char) (year : List Char) (text : List Char)
  | garanteDecision (number : List Char) (year : Option (List Char))
      (text : List Char)
  deriving Repr, DecidableEq

/-- Matcher for
`/Article\s+(\d+)(?:\((\d+)\))?(?:\(([a-z])\))?\s+(?:of\s+)?(?:the\s+)?GDPR/i`
at the head of the input.  Returns the reference and the unconsumed rest. -/
def matchGdprAt (s : List Char) : Option (LegalReference × List Char) :=
  match pLitCI "Article".toList s with
  | none => none
  | some s1 =>
    match pWs1 s1 with
    | none => none
    | some s2 =>
      match pDigits1 s2 with
      | none => none
      | some (article, s3) =>
        let paraState : Option (List Char) × List Char :=
          match s3 with
          | '(' :: t =>
            match pDigits1 t with
            | some (ds, ')' :: r2) => (some ds, r2)
            | _ => (none, s3)
          | _ => (none, s3)
        let para := paraState.1
        let s4 := paraState.2
        let subState : Option Char × List Char :=
          match s4 with
          | '(' :: c :: ')' :: r2 =>
            if isAsciiLetter c then (some c, r2) else (none, s4)
          | _ => (none, s4)
        let sub := subState.1
        let s5 := subState.2
        match pWs1 s5 with
        | none => none
        | some s6 =>
          let s7 := pOptLitCIWs "of".toList s6
          let s8 := pOptLitCIWs "the".toList s7
          match pLitCI "GDPR".toList s8 with
          | none => none
          | some s9 =>
            some (.gdpr article para sub (s.take (s.length - s9.length)), s9)

/-- Matcher for `/Article\s+(\d+)\s+(?:of\s+)?(?:the\s+)?AI\s+Act/i`. -/
def matchAiActAt (s : List Char) : Option (LegalReference × List Char) :=
  match pLitCI "Article".toList s with
  | none => none
  | some s1 =>
    match pWs1 s1 with
    | none => none
    | some s2 =>
      match pDigits1 s2 with
      | none => none
      | some (article, s3) =>
        match pWs1 s3 with
        | none => none
        | some s4 =>
          let s5 := pOptLitCIWs "of".toList s4
          let s6 := pOptLitCIWs "the".toList s5
          match pLitCI "AI".toList s6 with
          | none => none
          | some s7 =>
            match pWs1 s7 with
            | none => none
            | some s8 =>
              match pLitCI "Act".toList s8 with
              | none => none
              | some s9 =>
                some (.aiAct article (s.take (s.length - s9.length)), s9)

/-- Matcher for `/D\.?\s*Lgs\.?\s+(?:n\.?\s*)?(\d+)\/(\d{4})/i`. -/
def matchDlgsAt (s : List Char) : Option (LegalReference × List Char) :=
  match s with
  | [] => none
  | c :: t =>
    if charEqCI 'D' c then
      let s1 := pWs0 (pOptChar '.' t)
      match pLitCI "Lgs".toList s1 with
      | none => none
      | some s2 =>
        match pWs1 (pOptChar '.' s2) with
        | none => none
        | some s3 =>
          let s4 := pOptNumeroMark s3
          match pDigits1 s4 with
          | none => none
          | some (number, s5) =>
            match s5 with
            | '/' :: s6 =>
              match pDigitsExact 4 s6 with
              | none => none
              | some (year, s7) =>
                some (.italianDecree number year
                        (s.take (s.length - s7.length)), s7)
            | _ => none
    else none

/-- Matcher for
`/(?:Provvedimento|Decisione)\s+(?:del\s+)?Garante\s+(?:n\.?\s*)?(\d+)(?:\/(\d{4}))?/i`. -/
def matchGaranteAt (s : List Char) : Option (LegalReference × List Char) :=
  let headWord :=
    match pLitCI "Provvedimento".toList s with
    | some r => some r
    | none => pLitCI "Decisione".toList s
  match headWord with
  | none => none
  | some s1 =>
    match pWs1 s1 with
    | none => none
    | some s2 =>
      let s3 := pOptLitCIWs "del".toList s2
      match pLitCI "Garante".toList s3 with
      | none => none
      | some s4 =>
        match pWs1 s4 with
        | none => none
        | some s5 =>
          let s6 := pOptNumeroMark s5
          match pDigits1 s6 with
          | none => none
          | some (number, s7) =>
            let yearState : Option (List Char) × List Char :=
              match s7 with
              | '/' :: s8 =>
                match pDigitsExact 4 s8 with
                | some (year, s9) => (some year, s9)
                | none => (none, s7)
              | _ => (none, s7)
            some (.garanteDecision number yearState.1
                    (s.take (s.length - yearState.2.length)), yearState.2)

/-- The `while ((match = pattern.exec(text)) !== null)` loop: scan the text
left to right, record each match with its start position, and resume after
the matched text.  Every successful match of the four patterns consumes at
least one character, so `text.length` fuel always suffices (a zero-length
match would make the JavaScript loop run forever). -/
def scanGo (m : List Char → Option (LegalReference × List Char)) :
    Nat → List Char → Nat → List (Nat × LegalReference)
  | 0, _, _ => []
  | _ + 1, [], _ => []
  | fuel + 1, c :: t, i =>
    match m (c :: t) with
    | some (ref, rest) =>
      (i, ref) :: scanGo m fuel rest (i + ((c :: t).length - rest.length))
    | none => scanGo m fuel t (i + 1)

/-- All matches of one pattern, with their start positions. -/
def scanMatches (m : List Char → Option (LegalReference × List Char))
    (text : List Char) : List (Nat × LegalReference) :=
  scanGo m text.length text 0

/-- `extractLegalReferences`: the four exec loops run one after the other,
each pushing all of its matches, so the output is grouped by family in the
fixed order GDPR, AI Act, Italian decree, Garante decision. -/
def extractLegalReferences (text : List Char) : List LegalReference :=
  (scanMatches matchGdprAt text).map Prod.snd ++
  (scanMatches matchAiActAt text).map Prod.snd ++
  (scanMatches matchDlgsAt text).map Prod.snd ++
  (scanMatches matchGaranteAt text).map Prod.snd

/-- All matches of the four families with positions, in the order the source
pushes them (used to state the ordering claim). -/
def extractLegalReferencesWithPos (text : List Char) :
    List (Nat × LegalReference) :=
  scanMatches matchGdprAt text ++ scanMatches matchAiActAt text ++
  scanMatches matchDlgsAt text ++ scanMatches matchGaranteAt text

/-! ## Chunking (LegalKnowledgeVectorizer.chunkDocument and helpers) -/

/-- Index normalization of `String.prototype.slice`: a negative index counts
from the end (clamped at 0), a nonnegative one is clamped at the length. -/
def jsSliceNorm (len : Nat) (i : Int) : Nat :=
  if i < 0 then ((len : Int) + i).toNat else min i.toNat len

/-- `text.slice(start, stop)` of JavaScript. -/
def jsSlice (s : List Char) (start stop : Int) : List Char :=
  (s.take (jsSliceNorm s.length stop)).drop (jsSliceNorm s.length start)

/-- The body of `splitWithOverlap`:
`while (start < text.length) { push(text.slice(start, min(start+chunkSize,
len))); start += chunkSize - overlap; }`.
The loop variable is a JavaScript number that can stay put or go backwards
when `overlap ≥ chunkSize`, so it is an `Int` and the loop carries fuel;
`none` means the fuel ran out with the loop still running. -/
def splitWithOverlapGo (text : List Char) (chunkSize overlap : Nat) :
    Nat → Int → Option (List (List Char))
  | 0, start => if start < (text.length : Int) then none else some []
  | fuel + 1, start =>
    if start < (text.length : Int) then
      match splitWithOverlapGo text chunkSize overlap fuel
          (start + (chunkSize : Int) - (overlap : Int)) with
      | none => none
      | some rest =>
        some (jsSlice text start (min (start + (chunkSize : Int))
                (text.length : Int)) :: rest)
    else some []

/-- `splitWithOverlap(text, chunkSize, overlap)` with explicit fuel. -/
def splitWithOverlap (text : List Char) (chunkSize overlap fuel : Nat) :
    Option (List (List Char)) :=
  splitWithOverlapGo text chunkSize overlap fuel 0

/-- Lookahead of `/\n(?=Article\s+\d+)/i`, applied to the text after a
newline. -/
def lookArticle (s : List Char) : Bool :=
  (match pLitCI "Article".toList s with
   | none => none
   | some s1 =>
     match pWs1 s1 with
     | none => none
     | some s2 => pDigits1 s2).isSome

/-- Lookahead of `/\n(?=Section\s+\d+)/i`. -/
def lookSection (s : List Char) : Bool :=
  (match pLitCI "Section".toList s with
   | none => none
   | some s1 =>
     match pWs1 s1 with
     | none => none
     | some s2 => pDigits1 s2).isSome

/-- Lookahead of the third pattern.  The source file literally contains the
two characters U+0E22 U+0E07 (a mojibake rendering of the section sign)
followed by `\s*\d+`; the embedding keeps those exact characters. -/
def lookMojibakeSection (s : List Char) : Bool :=
  (match pLitCI ['ย', 'ง'] s with
   | none => none
   | some s1 => pDigits1 (pWs0 s1)).isSome

/-- Lookahead of `/\n(?=\d+\.\s+[A-Z])/` (no `i` flag). -/
def lookNumbered (s : List Char) : Bool :=
  (match pDigits1 s with
   | none => none
   | some (_, s1) =>
     match s1 with
     | '.' :: s2 =>
       match pWs1 s2 with
       | none => none
       | some s3 =>
         match s3 with
         | c :: _ => if isUpperAZ c then some () else none
         | [] => none
     | _ => none).isSome

/-- `section.split(pattern)` for a lookahead pattern `/\n(?=...)/`: the text
is cut at every newline whose suffix satisfies the lookahead, and the
newline itself is removed (it is the matched separator). -/
def splitLookahead (p : List Char → Bool) : List Char → List Char →
    List (List Char)
  | [], acc => [acc.reverse]
  | c :: t, acc =>
    if c = '\n' && p t then acc.reverse :: splitLookahead p t []
    else splitLookahead p t (c :: acc)

/-- `section.trim().length > 0`: the section has a non-whitespace character. -/
def jsTrimNonempty (s : List Char) : Bool := s.any (fun c => !jsWhitespace c)

/-- One round of the pattern loop of `splitByLegalSections`: split every
current section and keep the pieces whose trim is nonempty. -/
def applySectionPattern (p : List Char → Bool)
    (sections : List (List Char)) : List (List Char) :=
  (sections.map (fun sec => (splitLookahead p sec []).filter jsTrimNonempty)).flatten

/-- `splitByLegalSections(content)`: the four patterns applied in order. -/
def splitByLegalSections (content : List Char) : List (List Char) :=
  applySectionPattern lookNumbered
    (applySectionPattern lookMojibakeSection
      (applySectionPattern lookSection
        (applySectionPattern lookArticle [content])))

/-- The per-section loop of `chunkDocument` in the citation-preserving
branch: a section short enough is pushed whole, a longer one goes through
`splitWithOverlap`. -/
def chunkSections (chunkSize overlap fuel : Nat) :
    List (List Char) → Option (List (List Char))
  | [] => some []
  | sec :: rest =>
    match (if sec.length ≤ chunkSize then some [sec]
           else splitWithOverlap sec chunkSize overlap fuel),
          chunkSections chunkSize overlap fuel rest with
    | some cs, some more => some (cs ++ more)
    | _, _ => none

/-- `chunkDocument(doc, { chunkSize, overlap, preserveLegalCitations })`,
applied to the document content. -/
def chunkDocument (content : List Char) (chunkSize overlap : Nat)
    (preserveLegalCitations : Bool) (fuel : Nat) :
    Option (List (List Char)) :=
  if preserveLegalCitations then
    chunkSections chunkSize overlap fuel (splitByLegalSections content)
  else
    splitWithOverlap content chunkSize overlap fuel

/-- Concatenation of chunks with the leading `overlap` characters removed
from every chunk (used for the tail of a sliding window). -/
def tailJoin (overlap : Nat) (cs : List (List Char)) : List Char :=
  (cs.map (List.drop overlap)).flatten

/-- Reassembly of a sliding window: the first chunk whole, every later chunk
with the leading `overlap` characters it shares with its predecessor
removed. -/
def reassemble (overlap : Nat) : List (List Char) → List Char
  | [] => []
  | chunk :: rest => chunk ++ tailJoin overlap rest

/-! ## Answer synthesis and confidence (LegalKnowledgeVectorizer) -/

/-- The metadata stored with each chunk and returned by the vector store. -/
structure HitMetadata where
  docId : String
  source : String
  legalReferences : List LegalReference
  deriving Repr, DecidableEq

/-- One formatted hit of `searchSimilar`: `{ id, content, metadata, score }`,
where `score` is the provider distance (`null` when the store returns no
distances). -/
structure SearchResult where
  id : String
  content : String
  metadata : HitMetadata
  score : Option ℚ
  deriving Repr, DecidableEq

/-- One entry of the `sources` field of a synthesized answer. -/
structure SourceEntry where
  documentId : String
  documentName : String
  relevance : Option ℚ
  deriving Repr, DecidableEq

/-- The `KnowledgeAnswer` record built by `synthesizeResponse`. -/
structure KnowledgeAnswer where
  requirement : String
  synthesizedContent : String
  sources : List SourceEntry
  legalReferences : List LegalReference
  confidence : ℚ
  deriving Repr, DecidableEq

/-- `contents.join(sep)` of JavaScript. -/
def joinSep (sep : String) : List String → String
  | [] => ""
  | [x] => x
  | x :: y :: rest => x ++ sep ++ joinSep sep (y :: rest)

/-- `combineContents(contents, requirementType)`: the placeholder synthesis
strategy, a plain join. -/
def combineContents (contents : List String) (_requirementType : String) :
    String :=
  joinSep "\n\n---\n\n" contents

/-- `calculateConfidence(results)`: 0 for an empty hit set, otherwise
`max(0, 1 - average of (r.score || 0))`. -/
def calculateConfidence (results : List SearchResult) : ℚ :=
  if results.length = 0 then 0
  else
    let avgDistance :=
      (results.map (fun r => r.score.getD 0)).sum / (results.length : ℚ)
    max 0 (1 - avgDistance)

/-- `synthesizeResponse(results, requirementType)`.
The source computes `sources` as `[...new Set(results.map(r => ({...})))]`;
each mapped object literal is a fresh reference, so the identity-based `Set`
removes nothing and spreading it preserves insertion order: the embedding is
the plain map.  The `legalReferences` push is guarded by the truthiness of
`r.metadata.legalReferences`, and an array is always truthy, so every hit
contributes its (possibly empty) reference list. -/
def synthesizeResponse (results : List SearchResult)
    (requirementType : String) : KnowledgeAnswer :=
  { requirement := requirementType
    synthesizedContent :=
      combineContents (results.map (fun r => r.content)) requirementType
    sources := results.map (fun r =>
      { documentId := r.metadata.docId
        documentName := r.metadata.source
        relevance := r.score })
    legalReferences :=
      (results.map (fun r => r.metadata.legalReferences)).flatten
    confidence := calculateConfidence results }

/-! ## `getLegalRequirement` (LegalKnowledgeService)

The whole body sits in a single `try { ... } catch (error) { log; throw
error; }`, so every failing `await` short-circuits the rest of the body and
the error reaches the caller.  The cache value round-trips through
`JSON.stringify`/`JSON.parse`, modelled as the identity; a missing key is
`Option.none`.  `cacheRead` is the `redis.get`, `retrieve` the
`vectorizer.queryLegalRequirement`, and `cacheWrite` the `redis.setEx`. -/

/-- `getLegalRequirement(requirementType, context)` as a function of the
outcomes of its three effectful steps. -/
def getLegalRequirement {α : Type} (cacheRead : Except String (Option α))
    (retrieve : Except String α) (cacheWrite : α → Except String Unit) :
    Except String α :=
  match cacheRead with
  | .error e => .error e
  | .ok (some cached) => .ok cached
  | .ok none =>
    match retrieve with
    | .error e => .error e
    | .ok requirement =>
      match cacheWrite requirement with
      | .error e => .error e
      | .ok _ => .ok requirement

/-! ## ViolationDetectionEngine: cookies, summary, fines, score -/

/-- A violation record; `affectsMinors` is absent (hence falsy) on the
violation types that do not set it, modelled as `false`. -/
structure Violation where
  type : String
  severity : String
  description : String
  evidence : List String
  affectsMinors : Bool
  deriving Repr, DecidableEq

/-- A scanned cookie (only the name is inspected by the compliance rule). -/
structure Cookie where
  name : String
  deriving Repr, DecidableEq

/-- `isEssentialCookie(name)`: the lower-cased name contains one of the
essential substrings. -/
def isEssentialCookie (name : String) : Bool :=
  ["session", "csrf", "auth", "security"].any (fun pat =>
    jsIncludes pat.toList (name.toList.map Char.toLower))

/-- `checkCookieCompliance(cookies)`: a single aggregate violation when at
least one non-essential cookie is present. -/
def checkCookieCompliance (cookies : List Cookie) : List Violation :=
  let nonEssentialCookies :=
    cookies.filter (fun cookie => !isEssentialCookie cookie.name)
  if nonEssentialCookies.length > 0 then
    [{ type := "cookie_consent_violation"
       severity := "medium"
       description := toString nonEssentialCookies.length ++
         " non-essential cookies set without explicit consent"
       evidence := nonEssentialCookies.map (fun c => c.name)
       affectsMinors := false }]
  else []

/-- A fine band `{min, max}`. -/
structure FineRange where
  min : Int
  max : Int
  deriving Repr, DecidableEq

/-- The own properties of the `baseFines` literal of `estimateFineRange`;
`none` models a key the literal itself does not define.  This is exact for
the three table keys; a JavaScript read `baseFines[severity]` additionally
consults `Object.prototype`, which `jsBaseFinesRead` carries (the two
models agree off the prototype keys, see
`estimateFineRangeJS_agrees_on_table`). -/
def baseFinesLookup (severity : String) : Option FineRange :=
  if severity = "critical" then some ⟨100000, 500000⟩
  else if severity = "high" then some ⟨50000, 200000⟩
  else if severity = "medium" then some ⟨10000, 50000⟩
  else none

/-- `estimateFineRange(violations)`: per-violation band sums, where
`baseFines[v.severity] || baseFines.medium` falls back to the medium band
(all bands are truthy objects, so `||` only catches `undefined`).
Faithful for severities that are not inherited `Object.prototype`
property names; the general model is `estimateFineRangeJS` below. -/
def estimateFineRange (violations : List Violation) : FineRange :=
  violations.foldl
    (fun acc v =>
      let range := (baseFinesLookup v.severity).getD ⟨10000, 50000⟩
      ⟨acc.min + range.min, acc.max + range.max⟩)
    ⟨0, 0⟩

/-- The own properties of the `penalties` literal of
`calculateComplianceScore`; exact for the three table keys, while a
JavaScript read also consults `Object.prototype` — see `jsPenaltiesRead`
and `complianceScoreJS_agrees_on_table`. -/
def penaltiesLookup (severity : String) : Option Int :=
  if severity = "critical" then some 25
  else if severity = "high" then some 15
  else if severity = "medium" then some 5
  else none

/-- `calculateComplianceScore(violations)`: start at 100, subtract
`penalties[v.severity] || 5` per violation (the listed penalties are
nonzero, so `||` only catches `undefined`), clamp at 0.  Faithful for
severities that are not inherited `Object.prototype` property names; the
general model is `calculateComplianceScoreJS` below. -/
def calculateComplianceScore (violations : List Violation) : Int :=
  let score := violations.foldl
    (fun score v => score - (penaltiesLookup v.severity).getD 5) 100
  max 0 score

/-- The report summary produced by `generateSummary`. -/
structure ComplianceSummary where
  totalViolations : Nat
  criticalViolations : Nat
  highViolations : Nat
  mediumViolations : Nat
  affectsMinors : Bool
  estimatedFineRange : FineRange
  complianceScore : Int
  deriving Repr, DecidableEq

/-- `generateSummary(violations)`. -/
def generateSummary (violations : List Violation) : ComplianceSummary :=
  { totalViolations := violations.length
    criticalViolations :=
      (violations.filter (fun v => v.severity = "critical")).length
    highViolations :=
      (violations.filter (fun v => v.severity = "high")).length
    mediumViolations :=
      (violations.filter (fun v => v.severity = "medium")).length
    affectsMinors := violations.any (fun v => v.affectsMinors)
    estimatedFineRange := estimateFineRange violations
    complianceScore := calculateComplianceScore violations }

/-! ## Claim C1: cache-backend failures in `getLegalRequirement` -/

/-- Claim C1, as stated, is false: with a failing cache read and a
retrieval that would succeed with the answer `7`, `getLegalRequirement`
returns the cache error instead of the synthesized answer, and with a
failing cache write after a successful retrieval it also returns the error
instead of the answer. -/
theorem getLegalRequirement_cache_error_counterexample :
    getLegalRequirement (α := Nat) (Except.error "cache down") (Except.ok 7)
        (fun _ => Except.ok ()) = Except.error "cache down" ∧
    getLegalRequirement (α := Nat) (Except.ok none) (Except.ok 7)
        (fun _ => Except.error "cache down") = Except.error "cache down" ∧
    (Except.error "cache down" : Except String Nat) ≠ Except.ok 7 := by
  refine ⟨rfl, rfl, fun h => ?_⟩
  exact Except.noConfusion h

/-- Claim C1 (amended): `getLegalRequirement` propagates cache-backend
errors.  A cache read failure is returned to the caller whatever the write
would do, a cache write failure after a successful retrieval is returned
instead of the synthesized answer, and the answer is returned when the read
misses and the write succeeds. -/
theorem getLegalRequirement_error_propagation (α : Type) (e : String) (a : α)
    (wres : Except String Unit) :
    getLegalRequirement (Except.error e) (Except.ok a) (fun _ => wres) =
      Except.error e ∧
    getLegalRequirement (Except.ok none) (Except.ok a)
        (fun _ => Except.error e) = Except.error e ∧
    getLegalRequirement (Except.ok none) (Except.ok a)
        (fun _ => Except.ok ()) = Except.ok a :=
  ⟨rfl, rfl, rfl⟩

/-! ## Claim C5: deduplication of `sources` in `synthesizeResponse` -/

/-- Two retrieval hits coming from two chunks of the same document. -/
def duplicateDocHits : List SearchResult :=
  [⟨"doc1_chunk_0", "chunk one", ⟨"doc1", "Doc One", []⟩, some 0⟩,
   ⟨"doc1_chunk_1", "chunk two", ⟨"doc1", "Doc One", []⟩, some 1⟩]

/-- Claim C5 is false on the code: `[...new Set(...)]` over freshly built
objects removes nothing, so two hits from chunks of the same document yield
two `sources` entries with the same `documentId`. -/
theorem synthesizeResponse_duplicate_sources :
    (synthesizeResponse duplicateDocHits "violation_severity").sources =
      [⟨"doc1", "Doc One", some 0⟩, ⟨"doc1", "Doc One", some 1⟩] ∧
    ((synthesizeResponse duplicateDocHits "violation_severity").sources.map
      (fun s => s.documentId)) = ["doc1", "doc1"] ∧
    ¬ List.Pairwise (fun s t => s.documentId ≠ t.documentId)
        (synthesizeResponse duplicateDocHits "violation_severity").sources := by
  refine ⟨by decide, by decide, by decide⟩

/-! ## Claim C9: the cookie-compliance scenario -/

/-- Claim C9: cookies named `session_id` and `_ga` produce exactly one
violation, of type `cookie_consent_violation` with severity `medium`, whose
evidence contains `_ga` and not `session_id` (`session_id` matches the
essential substring `session`). -/
theorem checkCookieCompliance_scenario :
    checkCookieCompliance [⟨"session_id"⟩, ⟨"_ga"⟩] =
      [{ type := "cookie_consent_violation"
         severity := "medium"
         description := "1 non-essential cookies set without explicit consent"
         evidence := ["_ga"]
         affectsMinors := false }] ∧
    (∀ v ∈ checkCookieCompliance [⟨"session_id"⟩, ⟨"_ga"⟩],
        v.type = "cookie_consent_violation" ∧ v.severity = "medium" ∧
        "_ga" ∈ v.evidence ∧ "session_id" ∉ v.evidence) ∧
    (checkCookieCompliance [⟨"session_id"⟩, ⟨"_ga"⟩]).length = 1 := by decide

/-! ## Claim C6: `calculateConfidence` -/

/-- Claim C6: with all hit distances nonnegative, the confidence is
`max 0 (1 - mean distance)`, lies in `[0, 1]`, and is exactly 0 on the
empty hit set. -/
theorem calculateConfidence_spec (results : List SearchResult)
    (h : ∀ r ∈ results, 0 ≤ r.score.getD 0) :
    (results ≠ [] → calculateConfidence results =
      max 0 (1 - (results.map (fun r => r.score.getD 0)).sum /
        (results.length : ℚ))) ∧
    0 ≤ calculateConfidence results ∧
    calculateConfidence results ≤ 1 ∧
    calculateConfidence ([] : List SearchResult) = 0 := by
  have hformula : results ≠ [] → calculateConfidence results =
      max 0 (1 - (results.map (fun r => r.score.getD 0)).sum /
        (results.length : ℚ)) := by
    intro hne
    simp [calculateConfidence, List.length_eq_zero.not.mpr hne]
  refine ⟨hformula, ?_, ?_, by simp [calculateConfidence]⟩
  · cases results with
    | nil => simp [calculateConfidence]
    | cons r t =>
      rw [hformula (by simp)]
      exact le_max_left 0 _
  · cases results with
    | nil => simp [calculateConfidence]
    | cons r t =>
      rw [hformula (by simp)]
      have hsum : 0 ≤ ((r :: t).map (fun r => r.score.getD 0)).sum := by
        apply List.sum_nonneg
        intro x hx
        obtain ⟨s, hs, rfl⟩ := List.mem_map.mp hx
        exact h s hs
      have hlen : (0 : ℚ) ≤ ((r :: t).length : ℚ) := by positivity
      have hdiv : 0 ≤ ((r :: t).map (fun r => r.score.getD 0)).sum /
          (((r :: t).length : ℕ) : ℚ) := div_nonneg hsum hlen
      apply max_le (by norm_num)
      linarith

/-- A concrete hit list for the confidence claim: one hit with distance 1,
one hit whose distance is absent (`null`, read as 0). -/
def confidenceWitnessHits : List SearchResult :=
  [⟨"a", "x", ⟨"d", "n", []⟩, some 1⟩, ⟨"b", "y", ⟨"d", "n", []⟩, none⟩]

/-- Witness for claim C6 at a concrete hit list. -/
theorem calculateConfidence_spec_witness :
    (confidenceWitnessHits ≠ [] → calculateConfidence confidenceWitnessHits =
      max 0 (1 - (confidenceWitnessHits.map (fun r => r.score.getD 0)).sum /
        (confidenceWitnessHits.length : ℚ))) ∧
    0 ≤ calculateConfidence confidenceWitnessHits ∧
    calculateConfidence confidenceWitnessHits ≤ 1 ∧
    calculateConfidence ([] : List SearchResult) = 0 :=
  calculateConfidence_spec confidenceWitnessHits (by decide)

/-! ## Claim C7: `calculateComplianceScore` -/

/-- The score fold subtracts exactly the sum of the per-violation
penalties. -/
lemma foldl_penalty (l : List Violation) (init : Int) :
    l.foldl (fun score v => score - (penaltiesLookup v.severity).getD 5)
        init =
      init - (l.map (fun v => (penaltiesLookup v.severity).getD 5)).sum := by
  induction l generalizing init with
  | nil => simp
  | cons v t ih =>
    simp only [List.foldl_cons, List.map_cons, List.sum_cons, ih]
    ring

/-- Every penalty the code can subtract is at least the default 5. -/
lemma penalty_ge_five (s : String) : 5 ≤ (penaltiesLookup s).getD 5 := by
  unfold penaltiesLookup
  split_ifs <;> simp

/-- Claim C7: the compliance score is `max 0 (100 - Σ penalties)` with the
table critical 25 / high 15 / medium 5, never increases when a violation is
appended, is never negative, and five critical violations give exactly 0. -/
theorem calculateComplianceScore_spec (l : List Violation)
    (_h : ∀ v ∈ l, v.severity = "critical" ∨ v.severity = "high" ∨
      v.severity = "medium") :
    calculateComplianceScore l =
      max 0 (100 -
        (l.map (fun v => (penaltiesLookup v.severity).getD 5)).sum) ∧
    (∀ v, calculateComplianceScore (l ++ [v]) ≤
      calculateComplianceScore l) ∧
    0 ≤ calculateComplianceScore l ∧
    calculateComplianceScore
      (List.replicate 5 ⟨"x", "critical", "", [], false⟩) = 0 := by
  refine ⟨by simp [calculateComplianceScore, foldl_penalty], ?_,
    le_max_left 0 _, by decide⟩
  intro v
  simp only [calculateComplianceScore, foldl_penalty, List.map_append,
    List.sum_append, List.map_cons, List.map_nil, List.sum_cons,
    List.sum_nil]
  have hv := penalty_ge_five v.severity
  apply max_le_max le_rfl
  linarith

/-- A concrete list with the three known severities. -/
def scoreWitnessViolations : List Violation :=
  [⟨"a", "critical", "", [], false⟩, ⟨"b", "high", "", [], false⟩,
   ⟨"c", "medium", "", [], false⟩]

/-- Witness for claim C7 at a concrete violation list. -/
theorem calculateComplianceScore_spec_witness :
    calculateComplianceScore scoreWitnessViolations =
      max 0 (100 - (scoreWitnessViolations.map
        (fun v => (penaltiesLookup v.severity).getD 5)).sum) ∧
    (∀ v, calculateComplianceScore (scoreWitnessViolations ++ [v]) ≤
      calculateComplianceScore scoreWitnessViolations) ∧
    0 ≤ calculateComplianceScore scoreWitnessViolations ∧
    calculateComplianceScore
      (List.replicate 5 ⟨"x", "critical", "", [], false⟩) = 0 :=
  calculateComplianceScore_spec scoreWitnessViolations (by decide)

/-! ## Claim C8: `estimateFineRange` -/

/-- The fine-range fold adds the per-violation band bounds to the
accumulator. -/
lemma estimateFineRange_foldl (l : List Violation) (init : FineRange) :
    l.foldl
      (fun acc v =>
        let range := (baseFinesLookup v.severity).getD ⟨10000, 50000⟩
        (⟨acc.min + range.min, acc.max + range.max⟩ : FineRange)) init =
      ⟨init.min + (l.map (fun v =>
          ((baseFinesLookup v.severity).getD ⟨10000, 50000⟩).min)).sum,
       init.max + (l.map (fun v =>
          ((baseFinesLookup v.severity).getD ⟨10000, 50000⟩).max)).sum⟩ := by
  induction l generalizing init with
  | nil => simp
  | cons v t ih =>
    simp only [List.foldl_cons, List.map_cons, List.sum_cons, ih,
      FineRange.mk.injEq]
    constructor <;> ring

/-- Claim C8: `estimateFineRange` is additive over the severity-banded
table, and one critical plus one high violation yield
`min = 100000 + 50000`, `max = 500000 + 200000`. -/
theorem estimateFineRange_additive (l : List Violation)
    (_h : ∀ v ∈ l, v.severity = "critical" ∨ v.severity = "high" ∨
      v.severity = "medium") :
    estimateFineRange l =
      ⟨(l.map (fun v =>
          ((baseFinesLookup v.severity).getD ⟨10000, 50000⟩).min)).sum,
       (l.map (fun v =>
          ((baseFinesLookup v.severity).getD ⟨10000, 50000⟩).max)).sum⟩ ∧
    estimateFineRange [⟨"a", "critical", "", [], false⟩,
        ⟨"b", "high", "", [], false⟩] =
      ⟨100000 + 50000, 500000 + 200000⟩ := by
  refine ⟨?_, by decide⟩
  unfold estimateFineRange
  rw [estimateFineRange_foldl]
  simp

/-- Witness for claim C8 at a concrete violation list. -/
theorem estimateFineRange_additive_witness :
    estimateFineRange scoreWitnessViolations =
      ⟨(scoreWitnessViolations.map (fun v =>
          ((baseFinesLookup v.severity).getD ⟨10000, 50000⟩).min)).sum,
       (scoreWitnessViolations.map (fun v =>
          ((baseFinesLookup v.severity).getD ⟨10000, 50000⟩).max)).sum⟩ ∧
    estimateFineRange [⟨"a", "critical", "", [], false⟩,
        ⟨"b", "high", "", [], false⟩] =
      ⟨100000 + 50000, 500000 + 200000⟩ :=
  estimateFineRange_additive scoreWitnessViolations (by decide)

/-! ## Claim C10: violations with an unlisted severity

`estimateFineRange` and `calculateComplianceScore` read
`baseFines[v.severity]` and `penalties[v.severity]` on plain object
literals.  A JavaScript property read also consults the prototype chain:
for a key that names an `Object.prototype` member (`constructor`,
`toString`, `valueOf`, ...) the read returns the inherited function (or,
for `__proto__`, the prototype object itself), which is truthy, so the
`|| baseFines.medium` and `|| 5` fallbacks do not fire.  Arithmetic then
runs on the inherited value (`range.min` is `undefined`; `score -= fn`
converts the function with `ToNumber`) and produces `NaN`, which
propagates through the remaining additions and through `Math.max`.  The
model below carries this: `JsPropRead` is the outcome of the property
read, and the accumulators are `Option Int` with `none` playing `NaN`
(or, transiently, `undefined`) as absorbing element. -/

/-- Outcome of a JavaScript property read `obj[key]` on a plain object
literal: an own property of the literal, a truthy value inherited from
`Object.prototype`, or `undefined`. -/
inductive JsPropRead (α : Type) where
  | own (v : α)
  | inherited
  | undefined
  deriving Repr, DecidableEq

/-- The property names every plain object literal inherits from
`Object.prototype`. -/
def objectPrototypeKeys : List String :=
  ["constructor", "hasOwnProperty", "isPrototypeOf",
   "propertyIsEnumerable", "toLocaleString", "toString", "valueOf",
   "__defineGetter__", "__defineSetter__", "__lookupGetter__",
   "__lookupSetter__", "__proto__"]

/-- The full read `baseFines[severity]`: the three own bands, an inherited
truthy non-band for `Object.prototype` keys, `undefined` otherwise. -/
def jsBaseFinesRead (severity : String) : JsPropRead FineRange :=
  if severity = "critical" then .own ⟨100000, 500000⟩
  else if severity = "high" then .own ⟨50000, 200000⟩
  else if severity = "medium" then .own ⟨10000, 50000⟩
  else if severity ∈ objectPrototypeKeys then .inherited
  else .undefined

/-- The full read `penalties[severity]`. -/
def jsPenaltiesRead (severity : String) : JsPropRead Int :=
  if severity = "critical" then .own 25
  else if severity = "high" then .own 15
  else if severity = "medium" then .own 5
  else if severity ∈ objectPrototypeKeys then .inherited
  else .undefined

/-- Addition of JavaScript numbers where `none` is `NaN` (or `undefined`,
which `ToNumber` also turns into `NaN`): absorbing. -/
def jsAdd : Option Int → Option Int → Option Int
  | some a, some b => some (a + b)
  | _, _ => none

/-- Subtraction of JavaScript numbers, `none` playing `NaN` as in
`jsAdd`. -/
def jsSub : Option Int → Option Int → Option Int
  | some a, some b => some (a - b)
  | _, _ => none

/-- `Math.max(0, x)`: `NaN` when the argument is `NaN`. -/
def jsMax0 : Option Int → Option Int
  | none => none
  | some x => some (max 0 x)

/-- One iteration of the `estimateFineRange` loop under full property-read
semantics: `const range = baseFines[v.severity] || baseFines.medium;
minTotal += range.min; maxTotal += range.max;`.  On an inherited truthy
value the fallback does not fire and `range.min` / `range.max` are
`undefined`, so both totals become `NaN`. -/
def fineStepJS (acc : Option Int × Option Int) (v : Violation) :
    Option Int × Option Int :=
  match jsBaseFinesRead v.severity with
  | .own range => (jsAdd acc.1 (some range.min), jsAdd acc.2 (some range.max))
  | .inherited => (jsAdd acc.1 none, jsAdd acc.2 none)
  | .undefined => (jsAdd acc.1 (some 10000), jsAdd acc.2 (some 50000))

/-- `estimateFineRange(violations)` under full property-read semantics,
as the pair (`minTotal`, `maxTotal`). -/
def estimateFineRangeJS (violations : List Violation) :
    Option Int × Option Int :=
  violations.foldl fineStepJS (some 0, some 0)

/-- One iteration of the `calculateComplianceScore` loop under full
property-read semantics: `score -= penalties[v.severity] || 5;`.  On an
inherited truthy value the fallback does not fire and subtracting the
`NaN`-converting value makes the score `NaN`. -/
def penaltyStepJS (score : Option Int) (v : Violation) : Option Int :=
  match jsPenaltiesRead v.severity with
  | .own p => jsSub score (some p)
  | .inherited => jsSub score none
  | .undefined => jsSub score (some 5)

/-- The score fold of `calculateComplianceScore` under full property-read
semantics, before the final clamp. -/
def complianceRawJS (violations : List Violation) : Option Int :=
  violations.foldl penaltyStepJS (some 100)

/-- `calculateComplianceScore(violations)` under full property-read
semantics: `Math.max(0, score)`. -/
def calculateComplianceScoreJS (violations : List Violation) : Option Int :=
  jsMax0 (complianceRawJS violations)

/-- On violation lists whose severities are the three table keys, the
full-semantics score agrees with the simple model
`calculateComplianceScore` (the fold never meets an inherited value). -/
lemma penaltyFold_agrees (l : List Violation) :
    (∀ v ∈ l, v.severity = "critical" ∨ v.severity = "high" ∨
      v.severity = "medium") →
    ∀ init : Int, l.foldl penaltyStepJS (some init) =
      some (l.foldl
        (fun score v => score - (penaltiesLookup v.severity).getD 5) init) := by
  induction l with
  | nil => intro _ init; rfl
  | cons v t ih =>
    intro h init
    have ht := fun w hw => h w (List.mem_cons_of_mem v hw)
    have hv := h v (List.mem_cons_self v t)
    have hstep : penaltyStepJS (some init) v =
        some (init - (penaltiesLookup v.severity).getD 5) := by
      rcases hv with hv | hv | hv <;>
        simp [penaltyStepJS, jsPenaltiesRead, penaltiesLookup, hv, jsSub]
    rw [List.foldl_cons, List.foldl_cons, hstep, ih ht]

/-- Agreement of the two score models on the three-key domain. -/
lemma complianceScoreJS_agrees_on_table (l : List Violation)
    (h : ∀ v ∈ l, v.severity = "critical" ∨ v.severity = "high" ∨
      v.severity = "medium") :
    calculateComplianceScoreJS l = some (calculateComplianceScore l) := by
  unfold calculateComplianceScoreJS complianceRawJS calculateComplianceScore
  rw [penaltyFold_agrees l h 100]
  rfl

/-- On the three-key domain the full-semantics fine fold adds the band
sums of the simple model. -/
lemma fineFoldJS_sum (l : List Violation) :
    (∀ v ∈ l, v.severity = "critical" ∨ v.severity = "high" ∨
      v.severity = "medium") →
    ∀ a b : Int, l.foldl fineStepJS (some a, some b) =
      (some (a + (l.map (fun v =>
          ((baseFinesLookup v.severity).getD ⟨10000, 50000⟩).min)).sum),
       some (b + (l.map (fun v =>
          ((baseFinesLookup v.severity).getD ⟨10000, 50000⟩).max)).sum)) := by
  induction l with
  | nil => intro _ a b; simp
  | cons v t ih =>
    intro h a b
    have ht := fun w hw => h w (List.mem_cons_of_mem v hw)
    have hv := h v (List.mem_cons_self v t)
    have hstep : fineStepJS (some a, some b) v =
        (some (a + ((baseFinesLookup v.severity).getD ⟨10000, 50000⟩).min),
         some (b + ((baseFinesLookup v.severity).getD ⟨10000, 50000⟩).max)) := by
      rcases hv with hv | hv | hv <;>
        simp [fineStepJS, jsBaseFinesRead, baseFinesLookup, hv, jsAdd]
    rw [List.foldl_cons, hstep, ih ht]
    simp [List.map_cons, List.sum_cons, add_assoc]

/-- Agreement of the two fine-range models on the three-key domain. -/
lemma estimateFineRangeJS_agrees_on_table (l : List Violation)
    (h : ∀ v ∈ l, v.severity = "critical" ∨ v.severity = "high" ∨
      v.severity = "medium") :
    estimateFineRangeJS l =
      (some (estimateFineRange l).min, some (estimateFineRange l).max) := by
  unfold estimateFineRangeJS estimateFineRange
  rw [fineFoldJS_sum l h 0 0, estimateFineRange_foldl]

/-- A violation whose severity names an `Object.prototype` member. -/
def protoKeyViolation : Violation := ⟨"x", "toString", "", [], false⟩

/-- Claim C10, as stated, is false: the severity `toString` is outside
{critical, high, medium}, yet the program does not fall back to the
medium band and the default penalty 5.  The property read returns the
inherited truthy `Object.prototype.toString`, so for a single such
violation the fine totals and the compliance score are all `NaN`
(modelled as `none`) instead of the (10000, 50000) band and the score
`max(0, 100 - 5) = 95` the claim asserts. -/
theorem unknownSeverity_prototype_counterexample :
    (protoKeyViolation.severity ≠ "critical" ∧
     protoKeyViolation.severity ≠ "high" ∧
     protoKeyViolation.severity ≠ "medium") ∧
    estimateFineRangeJS [protoKeyViolation] = (none, none) ∧
    estimateFineRangeJS [protoKeyViolation] ≠ (some 10000, some 50000) ∧
    calculateComplianceScoreJS [protoKeyViolation] = none ∧
    calculateComplianceScoreJS [protoKeyViolation] ≠ some 95 := by decide

/-- Claim C10 (amended): a violation whose severity is outside
{critical, high, medium} is still counted in `totalViolations` and
appears in none of the three per-severity counts; when the severity is
additionally not an `Object.prototype` property name, the reads yield
`undefined`, the `||` fallbacks fire, and the violation contributes the
medium band 10000–50000 to the fine totals and the default penalty 5 to
the score (an `Object.prototype` key instead turns both into `NaN`, see
the counterexample). -/
theorem unknownSeverity_defaults_amended (l : List Violation) (v : Violation)
    (h1 : v.severity ≠ "critical") (h2 : v.severity ≠ "high")
    (h3 : v.severity ≠ "medium") (h4 : v.severity ∉ objectPrototypeKeys) :
    (generateSummary (l ++ [v])).totalViolations = l.length + 1 ∧
    (generateSummary (l ++ [v])).criticalViolations =
      (generateSummary l).criticalViolations ∧
    (generateSummary (l ++ [v])).highViolations =
      (generateSummary l).highViolations ∧
    (generateSummary (l ++ [v])).mediumViolations =
      (generateSummary l).mediumViolations ∧
    estimateFineRangeJS (l ++ [v]) =
      (jsAdd (estimateFineRangeJS l).1 (some 10000),
       jsAdd (estimateFineRangeJS l).2 (some 50000)) ∧
    calculateComplianceScoreJS (l ++ [v]) =
      jsMax0 (jsSub (complianceRawJS l) (some 5)) := by
  have hbase : jsBaseFinesRead v.severity = .undefined := by
    unfold jsBaseFinesRead
    simp [h1, h2, h3, h4]
  have hpen : jsPenaltiesRead v.severity = .undefined := by
    unfold jsPenaltiesRead
    simp [h1, h2, h3, h4]
  refine ⟨by simp [generateSummary], ?_, ?_, ?_, ?_, ?_⟩
  · simp [generateSummary, List.filter_append, h1]
  · simp [generateSummary, List.filter_append, h2]
  · simp [generateSummary, List.filter_append, h3]
  · simp only [estimateFineRangeJS, List.foldl_append, List.foldl_cons,
      List.foldl_nil, fineStepJS, hbase]
  · simp only [calculateComplianceScoreJS, complianceRawJS,
      List.foldl_append, List.foldl_cons, List.foldl_nil, penaltyStepJS,
      hpen]

/-- A violation with a severity outside the table and outside the
`Object.prototype` property names. -/
def lowSeverityViolation : Violation := ⟨"x", "low", "", [], false⟩

/-- Witness for the amended claim C10 at a concrete list and violation. -/
theorem unknownSeverity_defaults_amended_witness :
    (generateSummary (scoreWitnessViolations ++ [lowSeverityViolation])).totalViolations =
      scoreWitnessViolations.length + 1 ∧
    (generateSummary (scoreWitnessViolations ++ [lowSeverityViolation])).criticalViolations =
      (generateSummary scoreWitnessViolations).criticalViolations ∧
    (generateSummary (scoreWitnessViolations ++ [lowSeverityViolation])).highViolations =
      (generateSummary scoreWitnessViolations).highViolations ∧
    (generateSummary (scoreWitnessViolations ++ [lowSeverityViolation])).mediumViolations =
      (generateSummary scoreWitnessViolations).mediumViolations ∧
    estimateFineRangeJS (scoreWitnessViolations ++ [lowSeverityViolation]) =
      (jsAdd (estimateFineRangeJS scoreWitnessViolations).1 (some 10000),
       jsAdd (estimateFineRangeJS scoreWitnessViolations).2 (some 50000)) ∧
    calculateComplianceScoreJS (scoreWitnessViolations ++ [lowSeverityViolation]) =
      jsMax0 (jsSub (complianceRawJS scoreWitnessViolations) (some 5)) :=
  unknownSeverity_defaults_amended scoreWitnessViolations lowSeverityViolation
    (by decide) (by decide) (by decide) (by decide)

/-! ## Claim C3: `overlap ≥ chunkSize` -/

/-- With `chunkSize ≤ overlap` the loop increment `chunkSize - overlap` is
not positive, so `start` never reaches the end of a nonempty text: whatever
the fuel, the loop is still running. -/
lemma splitWithOverlapGo_stuck (text : List Char) (chunkSize overlap : Nat)
    (hco : chunkSize ≤ overlap) :
    ∀ (fuel : Nat) (start : Int), start < (text.length : Int) →
      splitWithOverlapGo text chunkSize overlap fuel start = none := by
  intro fuel
  induction fuel with
  | zero =>
    intro start h
    simp [splitWithOverlapGo, h]
  | succ f ih =>
    intro start h
    have hstep : start + (chunkSize : Int) - (overlap : Int) <
        (text.length : Int) := by
      have hc : (chunkSize : Int) ≤ (overlap : Int) := by exact_mod_cast hco
      omega
    simp [splitWithOverlapGo, h, ih _ hstep]

/-- Claim C3 fails as stated: a configuration with `overlap ≥ chunkSize` is
not rejected.  On any nonempty document (without citation preservation, or
inside any over-long section) the sliding-window loop never terminates:
for every amount of fuel the loop is still running, so the code neither
signals an error nor produces chunks. -/
theorem chunkDocument_overlap_ge_diverges (content : List Char)
    (chunkSize overlap fuel : Nat) (hco : chunkSize ≤ overlap)
    (hne : 1 ≤ content.length) :
    chunkDocument content chunkSize overlap false fuel = none := by
  have h0 : (0 : Int) < (content.length : Int) := by exact_mod_cast hne
  simpa [chunkDocument, splitWithOverlap] using
    splitWithOverlapGo_stuck content chunkSize overlap hco fuel 0 h0

/-- Witness for claim C3: the loop on the two-character document `ab` with
`chunkSize = overlap = 1` is still running after 100 fuel. -/
theorem chunkDocument_overlap_ge_diverges_witness :
    chunkDocument "ab".toList 1 1 false 100 = none :=
  chunkDocument_overlap_ge_diverges "ab".toList 1 1 100 (by decide) (by decide)

/-! ## Claim C2: loss-less chunking -/

/-- `jsSliceNorm` at a nonnegative index. -/
lemma jsSliceNorm_natCast (len a : Nat) :
    jsSliceNorm len (a : Int) = min a len := by
  simp [jsSliceNorm]

/-- `jsSlice` at nonnegative indices is plain take-then-drop. -/
lemma jsSlice_natCast (s : List Char) (a b : Nat) :
    jsSlice s (a : Int) (b : Int) = (s.take b).drop a := by
  unfold jsSlice
  rw [jsSliceNorm_natCast, jsSliceNorm_natCast]
  have htake : s.take (min b s.length) = s.take b := by
    rcases le_total b s.length with hb | hb
    · rw [min_eq_left hb]
    · rw [min_eq_right hb, List.take_length, List.take_of_length_le hb]
  rw [htake]
  rcases le_total a s.length with ha | ha
  · rw [min_eq_left ha]
  · rw [min_eq_right ha]
    have hlen : (s.take b).length ≤ s.length := by
      rw [List.length_take]
      omega
    rw [List.drop_eq_nil_of_le hlen, List.drop_eq_nil_of_le (le_trans hlen ha)]

/-- Once `start` has passed the end of the text the loop exits at once. -/
lemma splitWithOverlapGo_done (text : List Char) (chunkSize overlap : Nat)
    (fuel : Nat) (start : Int) (h : ¬ start < (text.length : Int)) :
    splitWithOverlapGo text chunkSize overlap fuel start = some [] := by
  cases fuel <;> simp [splitWithOverlapGo, h]

lemma tailJoin_cons (o : Nat) (c : List Char) (cs : List (List Char)) :
    tailJoin o (c :: cs) = c.drop o ++ tailJoin o cs := by
  simp [tailJoin]

/-- Gluing a middle window back onto the rest of the text. -/
lemma drop_take_append_drop (s : List Char) (a b : Nat) (hab : a ≤ b)
    (hb : b ≤ s.length) : (s.take b).drop a ++ s.drop b = s.drop a := by
  conv_rhs =>
    rw [← List.take_append_drop b s, List.drop_append_eq_append_drop]
  rw [List.length_take, min_eq_left hb, Nat.sub_eq_zero_of_le hab,
    List.drop_zero]

/-- Main window invariant: starting the loop at position `n` inside the
text, the produced chunks, each with its first `overlap` characters
removed, concatenate to the text from position `n + overlap` on.  The
chunk windows start at `n, n + step, n + 2·step, …` with
`step = chunkSize - overlap ≥ 1`, so `text.length - n` fuel suffices. -/
lemma splitWithOverlapGo_tailJoin (text : List Char) (chunkSize overlap : Nat)
    (ho : overlap < chunkSize) :
    ∀ (fuel n : Nat), n < text.length → text.length - n ≤ fuel →
      ∃ cs, splitWithOverlapGo text chunkSize overlap fuel (n : Int) =
          some cs ∧
        tailJoin overlap cs = text.drop (n + overlap) := by
  intro fuel
  induction fuel with
  | zero => intro n hn hf; omega
  | succ f ih =>
    intro n hn hf
    have hlt : (n : Int) < (text.length : Int) := by exact_mod_cast hn
    have harith : (n : Int) + (chunkSize : Int) - (overlap : Int) =
        ((n + (chunkSize - overlap) : Nat) : Int) := by omega
    have hmin : min ((n : Int) + (chunkSize : Int)) (text.length : Int) =
        ((min (n + chunkSize) text.length : Nat) : Int) := by omega
    rcases lt_or_ge (n + (chunkSize - overlap)) text.length with hlt' | hge'
    · obtain ⟨cs', hgo', htj'⟩ := ih (n + (chunkSize - overlap)) hlt'
        (by omega)
      refine ⟨jsSlice text (n : Int)
          (min ((n : Int) + (chunkSize : Int)) (text.length : Int)) :: cs',
        ?_, ?_⟩
      · simp only [splitWithOverlapGo, if_pos hlt, harith, hgo']
      · rw [tailJoin_cons, htj', hmin, jsSlice_natCast, List.drop_drop]
        have hco : (n + (chunkSize - overlap)) + overlap = n + chunkSize := by
          omega
        rw [hco]
        rcases le_or_lt (n + chunkSize) text.length with hbig | hbig
        · rw [min_eq_left hbig]
          exact drop_take_append_drop text (n + overlap) (n + chunkSize)
            (by omega) hbig
        · rw [min_eq_right hbig.le, List.take_length,
            List.drop_eq_nil_of_le
            (show text.length ≤ n + chunkSize by omega), List.append_nil]
    · refine ⟨[jsSlice text (n : Int)
          (min ((n : Int) + (chunkSize : Int)) (text.length : Int))], ?_, ?_⟩
      · have hdone : splitWithOverlapGo text chunkSize overlap f
            ((n + (chunkSize - overlap) : Nat) : Int) = some [] :=
          splitWithOverlapGo_done _ _ _ _ _
            (by exact_mod_cast not_lt.mpr hge')
        simp only [splitWithOverlapGo, if_pos hlt, harith, hdone]
      · have he : min (n + chunkSize) text.length = text.length := by omega
        rw [tailJoin_cons, tailJoin, List.map_nil, List.flatten_nil,
          List.append_nil, hmin, jsSlice_natCast, he, List.take_length,
          List.drop_drop]

/-- Starting the loop anywhere inside the text, the produced window
reassembles to the rest of the text: the first chunk whole, each later
chunk with the leading `overlap` shared characters removed. -/
lemma splitWithOverlapGo_reassemble (text : List Char)
    (chunkSize overlap : Nat) (ho : overlap < chunkSize) (fuel n : Nat)
    (hn : n < text.length) (hf : text.length - n ≤ fuel) :
    ∃ cs, splitWithOverlapGo text chunkSize overlap fuel (n : Int) =
        some cs ∧
      reassemble overlap cs = text.drop n := by
  obtain ⟨f, rfl⟩ : ∃ f, fuel = f + 1 := ⟨fuel - 1, by omega⟩
  have hlt : (n : Int) < (text.length : Int) := by exact_mod_cast hn
  have harith : (n : Int) + (chunkSize : Int) - (overlap : Int) =
      ((n + (chunkSize - overlap) : Nat) : Int) := by omega
  have hmin : min ((n : Int) + (chunkSize : Int)) (text.length : Int) =
      ((min (n + chunkSize) text.length : Nat) : Int) := by omega
  have hco : (n + (chunkSize - overlap)) + overlap = n + chunkSize := by
    omega
  rcases lt_or_ge (n + (chunkSize - overlap)) text.length with hlt' | hge'
  · obtain ⟨cs', hgo', htj'⟩ := splitWithOverlapGo_tailJoin text chunkSize
      overlap ho f (n + (chunkSize - overlap)) hlt' (by omega)
    refine ⟨jsSlice text (n : Int)
        (min ((n : Int) + (chunkSize : Int)) (text.length : Int)) :: cs',
      ?_, ?_⟩
    · simp only [splitWithOverlapGo, if_pos hlt, harith, hgo']
    · rw [reassemble, htj', hco, hmin, jsSlice_natCast]
      rcases le_or_lt (n + chunkSize) text.length with hbig | hbig
      · rw [min_eq_left hbig]
        exact drop_take_append_drop text n (n + chunkSize) (by omega) hbig
      · rw [min_eq_right hbig.le, List.take_length,
          List.drop_eq_nil_of_le
            (show text.length ≤ n + chunkSize by omega), List.append_nil]
  · refine ⟨[jsSlice text (n : Int)
        (min ((n : Int) + (chunkSize : Int)) (text.length : Int))], ?_, ?_⟩
    · have hdone : splitWithOverlapGo text chunkSize overlap f
          ((n + (chunkSize - overlap) : Nat) : Int) = some [] :=
        splitWithOverlapGo_done _ _ _ _ _
          (by exact_mod_cast not_lt.mpr hge')
      simp only [splitWithOverlapGo, if_pos hlt, harith, hdone]
    · have he : min (n + chunkSize) text.length = text.length := by omega
      rw [reassemble, tailJoin, List.map_nil, List.flatten_nil,
        List.append_nil, hmin, jsSlice_natCast, he, List.take_length]

/-- Claim C2 (amended, positive part): without citation preservation the
sliding-window chunking is loss-less: the first chunk followed by every
later chunk with its leading `overlap` shared characters removed
reconstructs the document exactly, for any document of at least one
character and any valid configuration `overlap < chunkSize`. -/
theorem chunkDocument_noPreserve_lossless (content : List Char)
    (chunkSize overlap : Nat) (ho : overlap < chunkSize)
    (hne : 1 ≤ content.length) :
    ∃ cs, chunkDocument content chunkSize overlap false content.length =
        some cs ∧
      reassemble overlap cs = content := by
  obtain ⟨cs, hgo, hre⟩ := splitWithOverlapGo_reassemble content chunkSize
    overlap ho content.length 0 (by omega) (by omega)
  refine ⟨cs, ?_, by simpa using hre⟩
  simpa [chunkDocument, splitWithOverlap] using hgo

/-- Witness for the amended claim C2 at a concrete document. -/
theorem chunkDocument_noPreserve_lossless_witness :
    ∃ cs, chunkDocument "abcdefgh".toList 3 1 false
        ("abcdefgh".toList).length = some cs ∧
      reassemble 1 cs = "abcdefgh".toList :=
  chunkDocument_noPreserve_lossless "abcdefgh".toList 3 1 (by decide)
    (by decide)

/-- Claim C2, as stated, is false: with citation preservation enabled on
the 11-character document `a\nArticle 1`, the section split consumes the
newline (the matched separator of `/\n(?=Article\s+\d+)/i`), so the two
produced chunks hold only 10 characters between them: no reassembly can
reproduce the original text. -/
theorem chunkDocument_preserve_drops_newline :
    chunkDocument "a\nArticle 1".toList 1000 200 true 11 =
      some ["a".toList, "Article 1".toList] ∧
    ("a".toList ++ "Article 1".toList).length <
      ("a\nArticle 1".toList).length ∧
    "a".toList ++ "Article 1".toList ≠ "a\nArticle 1".toList := by
  refine ⟨by decide, by decide, by decide⟩

/-! ## Claim C4: ordering of `extractLegalReferences` -/

/-- Every match recorded by the scan loop starts at or after the position
the scan was resumed from. -/
lemma scanGo_ge (m : List Char → Option (LegalReference × List Char)) :
    ∀ (fuel : Nat) (s : List Char) (i : Nat) (p : Nat × LegalReference),
      p ∈ scanGo m fuel s i → i ≤ p.1 := by
  intro fuel
  induction fuel with
  | zero =>
    intro s i p hp
    simp [scanGo] at hp
  | succ f ih =>
    intro s i p hp
    cases s with
    | nil => simp [scanGo] at hp
    | cons c t =>
      rw [scanGo] at hp
      cases hm : m (c :: t) with
      | none =>
        rw [hm] at hp
        exact le_trans (Nat.le_succ i) (ih t (i + 1) p hp)
      | some pr =>
        rw [hm] at hp
        rcases List.mem_cons.mp hp with rfl | hp'
        · exact le_refl i
        · exact le_trans (Nat.le_add_right i _) (ih pr.2 _ p hp')

/-- The positions recorded by one scan loop are nondecreasing. -/
lemma scanGo_chain (m : List Char → Option (LegalReference × List Char)) :
    ∀ (fuel : Nat) (s : List Char) (i : Nat),
      List.Chain' (fun a b => a.1 ≤ b.1) (scanGo m fuel s i) := by
  intro fuel
  induction fuel with
  | zero =>
    intro s i
    simp [scanGo]
  | succ f ih =>
    intro s i
    cases s with
    | nil => simp [scanGo]
    | cons c t =>
      rw [scanGo]
      cases hm : m (c :: t) with
      | none => exact ih t (i + 1)
      | some pr =>
        refine List.chain'_cons'.mpr ⟨?_, ih pr.2 _⟩
        intro b hb
        exact le_trans (Nat.le_add_right i _)
          (scanGo_ge m f pr.2 _ b (List.mem_of_mem_head? hb))

/-- Claim C4 (amended): `extractLegalReferences` is a pure function of the
text whose output is grouped by reference family, in the fixed order GDPR,
AI Act, Italian decree, Garante decision; within each family all matches
are returned, without deduplication, ordered by position of occurrence. -/
theorem extractLegalReferences_grouped_by_family (text : List Char) :
    extractLegalReferences text =
      (scanMatches matchGdprAt text).map Prod.snd ++
      (scanMatches matchAiActAt text).map Prod.snd ++
      (scanMatches matchDlgsAt text).map Prod.snd ++
      (scanMatches matchGaranteAt text).map Prod.snd ∧
    List.Chain' (fun a b => a.1 ≤ b.1) (scanMatches matchGdprAt text) ∧
    List.Chain' (fun a b => a.1 ≤ b.1) (scanMatches matchAiActAt text) ∧
    List.Chain' (fun a b => a.1 ≤ b.1) (scanMatches matchDlgsAt text) ∧
    List.Chain' (fun a b => a.1 ≤ b.1) (scanMatches matchGaranteAt text) :=
  ⟨rfl, scanGo_chain _ _ _ _, scanGo_chain _ _ _ _, scanGo_chain _ _ _ _,
    scanGo_chain _ _ _ _⟩

/-- Claim C4, as stated, is false: in
`Article 5 of the AI Act and Article 6 of the GDPR` the AI Act reference
occurs first (position 0) and the GDPR reference second (position 28), yet
the output lists the GDPR reference first, because the four families are
collected one after the other. -/
theorem extractLegalReferences_order_counterexample :
    (extractLegalReferencesWithPos
        "Article 5 of the AI Act and Article 6 of the GDPR".toList).map
      Prod.fst = [28, 0] ∧
    ¬ List.Chain' (fun a b => a.1 ≤ b.1)
      (extractLegalReferencesWithPos
        "Article 5 of the AI Act and Article 6 of the GDPR".toList) ∧
    extractLegalReferences
        "Article 5 of the AI Act and Article 6 of the GDPR".toList =
      [.gdpr "6".toList none none "Article 6 of the GDPR".toList,
       .aiAct "5".toList "Article 5 of the AI Act".toList] := by
  have hmap : (extractLegalReferencesWithPos
      "Article 5 of the AI Act and Article 6 of the GDPR".toList).map
    Prod.fst = [28, 0] := by decide
  refine ⟨hmap, fun hchain => ?_, by decide⟩
  have h2 : List.Chain' (fun a b : Nat => a ≤ b) [28, 0] := by
    rw [← hmap]
    exact (List.chain'_map Prod.fst).mpr hchain
  simp [List.chain'_cons] at h2
